import Mathlib

/-!
Verification of the NFL sacks-analysis dashboard (filtering pipeline,
data loader and chart builders), embedded shallowly from the Python
sources `__main__.py`, `core/data.py` and `core/plots.py`.

Tables are modelled as lists of rows; pandas boolean-mask filtering
becomes `List.filter`; pandas `sorted`/`sort_values` become insertion
sort (any correct sort: the library sort is total on the keys used).
-/

/-- One row of the processed game table (one team-game observation),
with the columns the dashboard reads. -/
structure Row where
  season : Int
  phase : String
  team_abbr : String
  resultado : String
  sacks_permitidos : Int
  puntos_anotados : Int
  margin : Int
  week : Int
  partido_id : String
  local_team_name : String
  visitante_team_name : String
deriving DecidableEq

/-- The sidebar filter criteria of `__main__.py`: selected season, phase
multiselect, the "Todos los equipos" checkbox, the team multiselect shown
when that checkbox is off, and the minimum-sacks slider value. -/
structure Criteria where
  season : Int
  phase_sel : List String
  all_teams : Bool
  team_choice : List String
  min_sacks : Int

/-- The effective `team_sel` variable of `__main__.py`: the sorted unique
team codes of the table when the all-teams checkbox is on, otherwise the
multiselect choice. -/
def team_sel (df : List Row) (c : Criteria) : List String :=
  if c.all_teams then
    List.insertionSort (· ≤ ·) ((df.map Row.team_abbr).dedup)
  else
    c.team_choice

/-- The boolean `mask` of `__main__.py` lines 58-63, per row: season
equality, phase membership, team membership (with the fallback
`team_sel if team_sel else df_raw["team_abbr"]`), and the inclusive
minimum-sacks bound. -/
def mask (df : List Row) (c : Criteria) (r : Row) : Bool :=
  (r.season == c.season)
    && c.phase_sel.contains r.phase
    && (if (team_sel df c).isEmpty then df.map Row.team_abbr else team_sel df c).contains
        r.team_abbr
    && decide (c.min_sacks ≤ r.sacks_permitidos)

/-- First-stage filter `df_f = df_raw[mask]` of `__main__.py` line 64. -/
def filterTable (df : List Row) (c : Criteria) : List Row :=
  df.filter (mask df c)

/-- Second-stage outcome filter
`df_o = df_f if resultado == "all" else df_f[df_f["resultado"] == resultado]`
of `__main__.py` line 65. -/
def outcomeFilter (df : List Row) (resultado : String) : List Row :=
  if resultado == "all" then df else df.filter (fun r => r.resultado == resultado)

/-- Unfolding of `mask` into its four propositional conjuncts. -/
theorem mask_iff (df : List Row) (c : Criteria) (r : Row) :
    mask df c r = true ↔
      r.season = c.season ∧ r.phase ∈ c.phase_sel ∧
      r.team_abbr ∈
        (if (team_sel df c).isEmpty then df.map Row.team_abbr else team_sel df c) ∧
      c.min_sacks ≤ r.sacks_permitidos := by
  simp [mask, and_assoc]

/-- A row of the table (used for concrete instances). -/
def r0 : Row :=
  { season := 2024, phase := "regular", team_abbr := "KC", resultado := "win",
    sacks_permitidos := 3, puntos_anotados := 27, margin := 10, week := 1,
    partido_id := "G1", local_team_name := "Chiefs", visitante_team_name := "Raiders" }

/-- Criteria with the all-teams checkbox off and an empty team multiselect. -/
def c0 : Criteria :=
  { season := 2024, phase_sel := ["regular"], all_teams := false,
    team_choice := [], min_sacks := 0 }

/-- Helper: a row of the table passes the team conjunct of `mask` whenever
the all-teams checkbox is on, or the team multiselect is empty (the code
falls back to the full team column), or the row team is among the chosen
codes. -/
theorem mask_team_mem (df : List Row) (c : Criteria) (r : Row) (hr : r ∈ df)
    (h : c.all_teams = true ∨ c.team_choice = [] ∨ r.team_abbr ∈ c.team_choice) :
    r.team_abbr ∈
      (if (team_sel df c).isEmpty then df.map Row.team_abbr else team_sel df c) := by
  by_cases hat : c.all_teams = true
  · have hmem : r.team_abbr ∈ team_sel df c := by
      simp only [team_sel, hat, if_true, List.mem_insertionSort, List.mem_dedup]
      exact List.mem_map_of_mem _ hr
    split
    · exact List.mem_map_of_mem _ hr
    · exact hmem
  · have hts : team_sel df c = c.team_choice := by simp [team_sel, hat]
    rcases h with h | h | h
    · exact absurd h hat
    · rw [hts, h]
      simp only [List.isEmpty_nil, if_true]
      exact List.mem_map_of_mem _ hr
    · split
      · exact List.mem_map_of_mem _ hr
      · rw [hts]
        exact h

/-- C1 counterexample: with the all-teams checkbox off and an empty team
multiselect, the filter keeps a row whose team is not in the (empty) team
set, so the team-membership conjunct of the claim is violated. -/
theorem filterTable_team_counterexample :
    filterTable [r0] c0 = [r0] ∧ c0.all_teams = false ∧ r0.team_abbr ∉ c0.team_choice := by
  decide

/-- C1 (amended): the first-stage filter returns a sublist of the input
preserving order; every returned row matches the season, the phase set and
the sacks bound, and lies in the team set unless the all-teams flag is on
or the team set is empty (both bypass the team conjunct); and no row of
the input satisfying all the predicates is excluded. -/
theorem filterTable_correct_amended (df : List Row) (c : Criteria) :
    (filterTable df c).Sublist df ∧
    (∀ r ∈ filterTable df c,
      r.season = c.season ∧ r.phase ∈ c.phase_sel ∧
      (c.all_teams = false → c.team_choice ≠ [] → r.team_abbr ∈ c.team_choice) ∧
      c.min_sacks ≤ r.sacks_permitidos) ∧
    (∀ r ∈ df,
      r.season = c.season → r.phase ∈ c.phase_sel →
      (c.all_teams = true ∨ c.team_choice = [] ∨ r.team_abbr ∈ c.team_choice) →
      c.min_sacks ≤ r.sacks_permitidos → r ∈ filterTable df c) := by
  refine ⟨List.filter_sublist df, ?_, ?_⟩
  · intro r hr
    obtain ⟨hdf, hm⟩ := List.mem_filter.mp hr
    rw [mask_iff] at hm
    obtain ⟨h1, h2, h3, h4⟩ := hm
    refine ⟨h1, h2, ?_, h4⟩
    intro hat hne
    have hts : team_sel df c = c.team_choice := by simp [team_sel, hat]
    have hemp : (team_sel df c).isEmpty = false := by
      rw [hts]
      cases hc : c.team_choice with
      | nil => exact absurd hc hne
      | cons a l => rfl
    rw [hemp] at h3
    simp only [Bool.false_eq_true, if_false] at h3
    rw [hts] at h3
    exact h3
  · intro r hr h1 h2 h3 h4
    refine List.mem_filter.mpr ⟨hr, ?_⟩
    rw [mask_iff]
    exact ⟨h1, h2, mask_team_mem df c r hr h3, h4⟩

/-- C1 witness: a concrete row satisfying the predicates is kept. -/
theorem filterTable_correct_amended_witness : r0 ∈ filterTable [r0] c0 :=
  (filterTable_correct_amended [r0] c0).2.2 r0 (by decide) rfl (by decide)
    (Or.inr (Or.inl rfl)) (by decide)

/-- C4: the first-stage filter is idempotent. -/
theorem filterTable_idempotent (df : List Row) (c : Criteria) :
    filterTable (filterTable df c) c = filterTable df c := by
  apply List.filter_eq_self.mpr
  intro r hr
  obtain ⟨hdf, hm⟩ := List.mem_filter.mp hr
  rw [mask_iff] at hm
  obtain ⟨h1, h2, h3, h4⟩ := hm
  rw [mask_iff]
  refine ⟨h1, h2, ?_, h4⟩
  refine mask_team_mem _ c r hr ?_
  by_cases hat : c.all_teams = true
  · exact Or.inl hat
  by_cases hch : c.team_choice = []
  · exact Or.inr (Or.inl hch)
  · right; right
    have hts : team_sel df c = c.team_choice := by simp [team_sel, hat]
    have hemp : (team_sel df c).isEmpty = false := by
      rw [hts]
      cases hc : c.team_choice with
      | nil => exact absurd hc hch
      | cons a l => rfl
    rw [hemp] at h3
    simp only [Bool.false_eq_true, if_false] at h3
    rw [hts] at h3
    exact h3

/-- C10: an empty team multiselect with the all-teams checkbox off is the
same filter as the all-teams checkbox on (the team conjunct is bypassed),
while an empty phase set yields an empty result. -/
theorem empty_team_selection_bypass (df : List Row) (s : Int) (ph tc : List String)
    (ms : Int) :
    filterTable df
        { season := s, phase_sel := ph, all_teams := false, team_choice := [],
          min_sacks := ms } =
      filterTable df
        { season := s, phase_sel := ph, all_teams := true, team_choice := tc,
          min_sacks := ms } ∧
    filterTable df
        { season := s, phase_sel := [], all_teams := false, team_choice := [],
          min_sacks := ms } = [] := by
  constructor
  · apply List.filter_congr
    intro r hr
    apply Bool.eq_iff_iff.mpr
    rw [mask_iff, mask_iff]
    constructor
    · rintro ⟨h1, h2, _, h4⟩
      exact ⟨h1, h2, mask_team_mem df _ r hr (Or.inl rfl), h4⟩
    · rintro ⟨h1, h2, _, h4⟩
      exact ⟨h1, h2, mask_team_mem df _ r hr (Or.inr (Or.inl rfl)), h4⟩
  · apply List.filter_eq_nil_iff.mpr
    intro r hr hm
    rw [mask_iff] at hm
    exact absurd hm.2.1 (List.not_mem_nil _)

/-- C3: the outcome sub-filter with selector "all" is the identity, and with
selector "win" or "loss" it keeps exactly the rows whose resultado equals
the selector. -/
theorem outcomeFilter_correct (df : List Row) (sel : String) :
    outcomeFilter df "all" = df ∧
    (sel = "win" ∨ sel = "loss" →
      outcomeFilter df sel = df.filter (fun r => r.resultado == sel)) := by
  constructor
  · simp [outcomeFilter]
  · intro h
    rcases h with h | h <;> subst h <;> rfl

/-- C3 witness: concrete application with selector "win". -/
theorem outcomeFilter_correct_witness :
    (("win" : String) = "win" ∨ ("win" : String) = "loss") ∧
    outcomeFilter [r0] "win" = [r0].filter (fun r => r.resultado == "win") :=
  ⟨Or.inl rfl, (outcomeFilter_correct [r0] "win").2 (Or.inl rfl)⟩

/-- What the presentation shell puts in a chart slot: either it invokes a
chart builder (named by the builder function) on the outcome-filtered
table, or it substitutes the "No hay datos con los filtros actuales"
notice. -/
inductive ChartSlot where
  | rendered (builderName : String)
  | noDataNotice
deriving DecidableEq

/-- Chart 2 dispatch of `__main__.py`: the sacks-vs-points scatter builder
is invoked only when `df_o` is nonempty, otherwise the notice is shown. -/
def chart2Render (df_o : List Row) : ChartSlot :=
  if df_o.isEmpty then ChartSlot.noDataNotice
  else ChartSlot.rendered "scatter_sacks_vs_points"

/-- Chart 3 dispatch of `__main__.py`: the box-distribution builder is
invoked unconditionally on `df_o`. -/
def chart3Render (_df_o : List Row) : ChartSlot :=
  ChartSlot.rendered "box_sacks_distribution"

/-- Chart 6 dispatch of `__main__.py`: the sacks-vs-margin scatter builder
is invoked unconditionally on `df_o`. -/
def chart6Render (_df_o : List Row) : ChartSlot :=
  ChartSlot.rendered "scatter_sacks_vs_margin"

/-- Criteria with an impossible season value (no row matches). -/
def impossibleCriteria : Criteria :=
  { season := 9999, phase_sel := ["regular"], all_teams := true,
    team_choice := [], min_sacks := 0 }

/-- C2 counterexample: filtering with an impossible season yields an empty
outcome table, yet the box and margin builders are still invoked on it (no
notice is substituted for charts 3 and 6; only chart 2 is guarded). -/
theorem empty_outcome_builders_counterexample :
    outcomeFilter (filterTable [r0] impossibleCriteria) "all" = [] ∧
    chart3Render (outcomeFilter (filterTable [r0] impossibleCriteria) "all") =
      ChartSlot.rendered "box_sacks_distribution" ∧
    chart6Render (outcomeFilter (filterTable [r0] impossibleCriteria) "all") =
      ChartSlot.rendered "scatter_sacks_vs_margin" := by
  decide

/-- C2 (amended): on an empty outcome table the sacks-vs-points scatter
builder is not invoked and the no-data notice is substituted, while the box
and margin builders are invoked unconditionally with the empty table. -/
theorem empty_outcome_dispatch (df_o : List Row) (h : df_o = []) :
    chart2Render df_o = ChartSlot.noDataNotice ∧
    chart3Render df_o = ChartSlot.rendered "box_sacks_distribution" ∧
    chart6Render df_o = ChartSlot.rendered "scatter_sacks_vs_margin" := by
  subst h
  exact ⟨rfl, rfl, rfl⟩

/-- C2 witness: concrete application to the empty table. -/
theorem empty_outcome_dispatch_witness :
    chart2Render [] = ChartSlot.noDataNotice ∧
    chart3Render [] = ChartSlot.rendered "box_sacks_distribution" ∧
    chart6Render [] = ChartSlot.rendered "scatter_sacks_vs_margin" :=
  empty_outcome_dispatch [] rfl

/-- A calendar date (proleptic Gregorian), the parsed form of the `fecha`
column. -/
structure Date where
  year : Int
  month : Nat
  day : Nat
deriving DecidableEq

/-- Gregorian leap-year test. -/
def isLeap (y : Int) : Bool :=
  (y % 4 == 0 && y % 100 != 0) || y % 400 == 0

/-- Number of days of a month. -/
def daysInMonth (y : Int) (m : Nat) : Nat :=
  if m = 2 then (if isLeap y then 29 else 28)
  else if m = 4 ∨ m = 6 ∨ m = 9 ∨ m = 11 then 30
  else 31

/-- Ordinal day of the year (1 for January 1). -/
def dayOfYear (d : Date) : Nat :=
  (List.range (d.month - 1)).foldl (fun acc i => acc + daysInMonth d.year (i + 1)) 0
    + d.day

/-- Days elapsed from the proleptic Gregorian epoch: day 1 is
January 1 of year 1 (a Monday). -/
def totalDays (d : Date) : Int :=
  365 * (d.year - 1) + (d.year - 1).fdiv 4 - (d.year - 1).fdiv 100
    + (d.year - 1).fdiv 400 + dayOfYear d

/-- ISO day of the week: Monday is 1, Sunday is 7. -/
def isoDayOfWeek (d : Date) : Nat :=
  ((totalDays d + 6) % 7).toNat + 1

/-- Weekday anchor used by the 53-week rule of the ISO calendar. -/
def isoYearAnchor (y : Int) : Int :=
  (y + y.fdiv 4 - y.fdiv 100 + y.fdiv 400) % 7

/-- Number of ISO weeks of a year: 53 when the year starts or ends on a
Thursday, 52 otherwise. -/
def isoWeeksInYear (y : Int) : Nat :=
  if isoYearAnchor y = 4 ∨ isoYearAnchor (y - 1) = 3 then 53 else 52

/-- ISO 8601 week number of a date, the model of the library call
`df["fecha"].dt.isocalendar().week` in `core/data.py`. -/
def isoWeek (d : Date) : Nat :=
  let w := (dayOfYear d + 10 - isoDayOfWeek d) / 7
  if w = 0 then isoWeeksInYear (d.year - 1)
  else if isoWeeksInYear d.year < w then 1
  else w

example : isoWeek ⟨2026, 10, 12⟩ = 42 := by decide
example : isoWeek ⟨2021, 1, 1⟩ = 53 := by decide
example : isoWeek ⟨2023, 1, 1⟩ = 52 := by decide
example : isoWeek ⟨2024, 12, 30⟩ = 1 := by decide
example : isoWeek ⟨2024, 9, 5⟩ = 36 := by decide

/-- The label map `{True: "Casa", False: "Visitante"}` applied to the
`is_home` column in `core/data.py`. -/
def locLabel (b : Bool) : String :=
  if b then "Casa" else "Visitante"

/-- The table as parsed from the CSV file (after `pd.read_csv` with
`parse_dates=["fecha"]`): the `week` and `loc_vi` columns may be absent. -/
structure RawFrame where
  fecha : List Date
  is_home : List Bool
  week : Option (List Nat)
  loc_vi : Option (List String)

/-- The augmented table returned by `load_data`: both derived columns are
present. -/
structure Frame where
  fecha : List Date
  is_home : List Bool
  week : List Nat
  loc_vi : List String
deriving DecidableEq

/-- The body of `load_data` in `core/data.py`: backfill the `week` column
from the ISO week of `fecha` when absent, and the `loc_vi` column from
`is_home` when absent; present columns are passed through. -/
def load_data (df : RawFrame) : Frame :=
  { fecha := df.fecha
    is_home := df.is_home
    week :=
      match df.week with
      | some w => w
      | none => df.fecha.map isoWeek
    loc_vi :=
      match df.loc_vi with
      | some l => l
      | none => df.is_home.map locLabel }

/-- C5: `load_data` derives an absent `week` column as the ISO week of
`fecha`, derives an absent `loc_vi` column by mapping `is_home` through
Casa/Visitante, and leaves every already-present column unchanged. -/
theorem load_data_derives_columns (df : RawFrame) :
    (df.week = none → (load_data df).week = df.fecha.map isoWeek) ∧
    (∀ w, df.week = some w → (load_data df).week = w) ∧
    (df.loc_vi = none → (load_data df).loc_vi = df.is_home.map locLabel) ∧
    (∀ l, df.loc_vi = some l → (load_data df).loc_vi = l) ∧
    (load_data df).fecha = df.fecha ∧ (load_data df).is_home = df.is_home := by
  refine ⟨?_, ?_, ?_, ?_, rfl, rfl⟩
  · intro h
    simp [load_data, h]
  · intro w h
    simp [load_data, h]
  · intro h
    simp [load_data, h]
  · intro l h
    simp [load_data, h]

/-- C5 witness: a concrete one-row frame with both derived columns absent. -/
theorem load_data_derives_columns_witness :
    (load_data ⟨[⟨2024, 9, 5⟩], [true], none, none⟩).week = [36] ∧
    (load_data ⟨[⟨2024, 9, 5⟩], [true], none, none⟩).loc_vi = ["Casa"] :=
  ⟨by rw [(load_data_derives_columns _).1 rfl]; decide,
   by rw [(load_data_derives_columns _).2.2.1 rfl]; decide⟩

/-- The memoization cache of the `@st.cache_data` decorator on `load_data`,
keyed by the input path. -/
def Cache := List (String × Frame)

/-- A call of the decorated loader: on a cache hit the cached frame is
returned and the cache is unchanged; on a miss the file is read, augmented
by `load_data`, returned and stored. `readFile` stands for the CSV parse
of the file at a path. -/
def cachedLoad (readFile : String → RawFrame) (path : String) (cache : Cache) :
    Frame × Cache :=
  match List.lookup path cache with
  | some f => (f, cache)
  | none => (load_data (readFile path), (path, load_data (readFile path)) :: cache)

/-- C9: two successive calls of the cached loader with the same path return
identical frames (in particular identical derived week and loc_vi columns)
and the second call leaves the cache unchanged. -/
theorem cachedLoad_memoized (readFile : String → RawFrame) (path : String)
    (cache : Cache) :
    (cachedLoad readFile path (cachedLoad readFile path cache).2).1 =
      (cachedLoad readFile path cache).1 ∧
    (cachedLoad readFile path (cachedLoad readFile path cache).2).2 =
      (cachedLoad readFile path cache).2 ∧
    (cachedLoad readFile path (cachedLoad readFile path cache).2).1.week =
      (cachedLoad readFile path cache).1.week ∧
    (cachedLoad readFile path (cachedLoad readFile path cache).2).1.loc_vi =
      (cachedLoad readFile path cache).1.loc_vi := by
  cases h : List.lookup path cache with
  | some f =>
      simp [cachedLoad, h]
  | none =>
      simp [cachedLoad, h, List.lookup]

/-- Arithmetic mean of a list of rationals, the model of the pandas
`.mean()` aggregation. -/
def meanQ (l : List ℚ) : ℚ := l.sum / l.length

/-- Mean sacks allowed over the loss rows of a given team, the per-group
value of `loss_df.groupby("team_abbr")["sacks_permitidos"].mean()`. -/
def lossMean (df : List Row) (t : String) : ℚ :=
  meanQ (((df.filter (fun r => r.resultado == "loss")).filter
    (fun r => r.team_abbr == t)).map (fun r => (r.sacks_permitidos : ℚ)))

/-- Descending order on bars: an earlier bar has the larger value. Models
`.sort_values(ascending=False)`. -/
def valDesc (a b : String × ℚ) : Prop := b.2 ≤ a.2

instance : DecidableRel valDesc := fun a b => inferInstanceAs (Decidable (b.2 ≤ a.2))

instance : IsTotal (String × ℚ) valDesc := ⟨fun a b => le_total b.2 a.2⟩

instance : IsTrans (String × ℚ) valDesc := ⟨fun _ _ _ h1 h2 => le_trans h2 h1⟩

/-- The `bar_avg_sacks_losses` builder of `core/plots.py`: restrict to the
loss rows, group by team (pandas groupby enumerates the sorted distinct
keys), take the mean sacks per group and sort the bars by value
descending. The result lists (team, mean) bars in display order. -/
def bar_avg_sacks_losses (df : List Row) : List (String × ℚ) :=
  let loss_df := df.filter (fun r => r.resultado == "loss")
  let teams := List.insertionSort (· ≤ ·) ((loss_df.map Row.team_abbr).dedup)
  List.insertionSort valDesc (teams.map (fun t => (t, lossMean df t)))

/-- The three-row table of the C6 concrete scenario. -/
def c6row1 : Row := { r0 with team_abbr := "A", resultado := "loss", sacks_permitidos := 2 }

/-- Second loss row of team A in the C6 scenario. -/
def c6row2 : Row := { r0 with team_abbr := "A", resultado := "loss", sacks_permitidos := 4 }

/-- The win row of team B in the C6 scenario. -/
def c6row3 : Row := { r0 with team_abbr := "B", resultado := "win", sacks_permitidos := 9 }

/-- The C6 scenario table. -/
def c6df : List Row := [c6row1, c6row2, c6row3]

/-- C6: the bar builder emits bars sorted descending by value, with one bar
per team having at least one loss row (no duplicates), each valued at the
mean sacks allowed over that team in losses; on the concrete scenario the
output is the single bar (A, 3). -/
theorem bar_avg_sacks_losses_correct (df : List Row) :
    (bar_avg_sacks_losses df).Sorted valDesc ∧
    ((bar_avg_sacks_losses df).map Prod.fst).Nodup ∧
    (∀ t : String, t ∈ (bar_avg_sacks_losses df).map Prod.fst ↔
      ∃ r ∈ df, r.resultado = "loss" ∧ r.team_abbr = t) ∧
    (∀ p ∈ bar_avg_sacks_losses df, p.2 = lossMean df p.1) ∧
    bar_avg_sacks_losses c6df = [("A", 3)] := by
  have hperm :
      (bar_avg_sacks_losses df).Perm
        ((List.insertionSort (· ≤ ·)
            (((df.filter (fun r => r.resultado == "loss")).map Row.team_abbr).dedup)).map
          (fun t => (t, lossMean df t))) :=
    List.perm_insertionSort valDesc _
  have hfst :
      ((List.insertionSort (· ≤ ·)
            (((df.filter (fun r => r.resultado == "loss")).map Row.team_abbr).dedup)).map
          (fun t => (t, lossMean df t))).map Prod.fst =
        List.insertionSort (· ≤ ·)
          (((df.filter (fun r => r.resultado == "loss")).map Row.team_abbr).dedup) := by
    rw [List.map_map]
    rw [show (Prod.fst ∘ fun t : String => (t, lossMean df t)) = id from rfl, List.map_id]
  refine ⟨List.sorted_insertionSort valDesc _, ?_, ?_, ?_, ?_⟩
  · rw [(hperm.map Prod.fst).nodup_iff, hfst]
    rw [(List.perm_insertionSort _ _).nodup_iff]
    exact List.nodup_dedup _
  · intro t
    rw [(hperm.map Prod.fst).mem_iff, hfst, List.mem_insertionSort, List.mem_dedup]
    constructor
    · intro h
      obtain ⟨r, hr, hteam⟩ := List.mem_map.mp h
      obtain ⟨hrdf, hloss⟩ := List.mem_filter.mp hr
      exact ⟨r, hrdf, by simpa using hloss, hteam⟩
    · rintro ⟨r, hrdf, hloss, hteam⟩
      exact List.mem_map.mpr ⟨r, List.mem_filter.mpr ⟨hrdf, by simpa using hloss⟩, hteam⟩
  · intro p hp
    have hp2 := hperm.mem_iff.mp hp
    obtain ⟨t, _, hpt⟩ := List.mem_map.mp hp2
    rw [← hpt]
  · show bar_avg_sacks_losses c6df = [("A", 3)]
    simp [bar_avg_sacks_losses, lossMean, meanQ, c6df, c6row1, c6row2, c6row3, r0,
      List.insertionSort, List.orderedInsert]
    norm_num

/-- C6 witness: team A has a bar in the concrete scenario. -/
theorem bar_avg_sacks_losses_correct_witness :
    "A" ∈ (bar_avg_sacks_losses c6df).map Prod.fst :=
  ((bar_avg_sacks_losses_correct c6df).2.2.1 "A").mpr
    ⟨c6row1, by decide, by decide, by decide⟩

/-- Descending order on rows by sacks allowed, the key of
`df_f.sort_values("sacks_permitidos", ascending=False)`. -/
def rowDesc (a b : Row) : Prop := b.sacks_permitidos ≤ a.sacks_permitidos

instance : DecidableRel rowDesc :=
  fun a b => inferInstanceAs (Decidable (b.sacks_permitidos ≤ a.sacks_permitidos))

instance : IsTotal Row rowDesc :=
  ⟨fun a b => le_total b.sacks_permitidos a.sacks_permitidos⟩

instance : IsTrans Row rowDesc := ⟨fun _ _ _ h1 h2 => le_trans h2 h1⟩

/-- The first ten rows of the filtered table sorted by sacks allowed
descending: `df_f.sort_values("sacks_permitidos", ascending=False).head(10)`. -/
def top10Rows (df : List Row) : List Row :=
  (List.insertionSort rowDesc df).take 10

/-- The projected display columns of the top-10 table in `__main__.py`. -/
structure TopDisplay where
  season : Int
  week : Int
  partido_id : String
  local_team_name : String
  visitante_team_name : String
  sacks_permitidos : Int
deriving DecidableEq

/-- Column projection `top10[["season", "week", "partido_id",
"local_team_name", "visitante_team_name", "sacks_permitidos"]]`. -/
def displayCols (r : Row) : TopDisplay :=
  { season := r.season, week := r.week, partido_id := r.partido_id,
    local_team_name := r.local_team_name,
    visitante_team_name := r.visitante_team_name,
    sacks_permitidos := r.sacks_permitidos }

/-- The displayed top-10 table. -/
def top10 (df : List Row) : List TopDisplay :=
  (top10Rows df).map displayCols

/-- C7: on a 15-row table with pairwise distinct sacks values the top-10
table has exactly 10 rows, is sorted descending by sacks allowed, and a row
of the table is displayed exactly when fewer than 10 rows beat its sacks
value — that is, it is the true top 10. -/
theorem top10_correct (df : List Row) (hlen : df.length = 15)
    (hnodup : (df.map Row.sacks_permitidos).Nodup) :
    (top10 df).length = 10 ∧
    (top10 df).Pairwise (fun a b => b.sacks_permitidos ≤ a.sacks_permitidos) ∧
    (∀ r ∈ df, displayCols r ∈ top10 df ↔
      (df.filter (fun x => r.sacks_permitidos < x.sacks_permitidos)).length < 10) := by
  have hperm := List.perm_insertionSort rowDesc df
  have hsorted := List.sorted_insertionSort rowDesc df
  generalize hS : List.insertionSort rowDesc df = s at hperm hsorted
  have hslen : s.length = 15 := hperm.length_eq.trans hlen
  have htake : (s.take 10).length = 10 := by rw [List.length_take, hslen]; omega
  have hsplit := List.take_append_drop 10 s
  have hnodS : (s.map Row.sacks_permitidos).Nodup :=
    ((hperm.map Row.sacks_permitidos).nodup_iff).mpr hnodup
  have hneS : s.Pairwise (fun a b => a.sacks_permitidos ≠ b.sacks_permitidos) :=
    List.pairwise_map.mp hnodS
  have hcross : ∀ x ∈ s.take 10, ∀ y ∈ s.drop 10,
      y.sacks_permitidos < x.sacks_permitidos := by
    have h1 : (s.take 10 ++ s.drop 10).Pairwise rowDesc := by rw [hsplit]; exact hsorted
    have h2 : (s.take 10 ++ s.drop 10).Pairwise
        (fun a b => a.sacks_permitidos ≠ b.sacks_permitidos) := by
      rw [hsplit]; exact hneS
    intro x hx y hy
    exact lt_of_le_of_ne ((List.pairwise_append.mp h1).2.2 x hx y hy)
      (Ne.symm ((List.pairwise_append.mp h2).2.2 x hx y hy))
  have hinj : ∀ x ∈ df, ∀ y ∈ df, displayCols x = displayCols y → x = y := by
    intro x hx y hy hd
    exact List.inj_on_of_nodup_map hnodup hx hy
      (congrArg TopDisplay.sacks_permitidos hd)
  have htop : top10 df = (s.take 10).map displayCols := by
    rw [top10, top10Rows, hS]
  have hfiltersplit : ∀ p : Row → Bool,
      (df.filter p).length =
        ((s.take 10).filter p).length + ((s.drop 10).filter p).length := by
    intro p
    have e1 : (df.filter p).length = (s.filter p).length :=
      ((hperm.filter p).length_eq).symm
    have e2 : s.filter p = (s.take 10).filter p ++ (s.drop 10).filter p := by
      conv_lhs => rw [← hsplit]
      rw [List.filter_append]
    rw [e1, e2, List.length_append]
  refine ⟨?_, ?_, ?_⟩
  · rw [htop, List.length_map]; exact htake
  · rw [htop]
    refine List.pairwise_map.mpr ?_
    exact List.Pairwise.sublist (List.take_sublist 10 s) hsorted
  · intro r hr
    rw [htop]
    constructor
    · intro hmem
      obtain ⟨x, hx, hxr⟩ := List.mem_map.mp hmem
      have hxdf : x ∈ df := hperm.mem_iff.mp ((List.take_sublist 10 s).subset hx)
      have hxr2 : x = r := hinj x hxdf r hr hxr
      subst hxr2
      have hdropnil :
          (s.drop 10).filter
            (fun z => x.sacks_permitidos < z.sacks_permitidos) = [] := by
        refine List.filter_eq_nil_iff.mpr ?_
        intro y hy
        simp only [decide_eq_true_eq]
        exact not_lt.mpr (le_of_lt (hcross x hx y hy))
      have htakelt :
          ((s.take 10).filter
            (fun z => x.sacks_permitidos < z.sacks_permitidos)).length < 10 := by
        have h :=
          (@List.length_filter_lt_length_iff_exists _
            (fun z => decide (x.sacks_permitidos < z.sacks_permitidos))
            (s.take 10)).mpr ⟨x, hx, by simp⟩
        rw [htake] at h
        exact h
      rw [hfiltersplit, hdropnil]
      simpa using htakelt
    · intro hlt
      have hrs : r ∈ s := hperm.mem_iff.mpr hr
      by_cases hrt : r ∈ s.take 10
      · exact List.mem_map_of_mem displayCols hrt
      · exfalso
        have hrd : r ∈ s.drop 10 := by
          have hmem2 : r ∈ s.take 10 ++ s.drop 10 := by rw [hsplit]; exact hrs
          rcases List.mem_append.mp hmem2 with h | h
          · exact absurd h hrt
          · exact h
        have hfull :
            (s.take 10).filter
              (fun z => r.sacks_permitidos < z.sacks_permitidos) = s.take 10 := by
          refine List.filter_eq_self.mpr ?_
          intro x hx
          simp only [decide_eq_true_eq]
          exact hcross x hx r hrd
        have h10 : 10 ≤
            (df.filter (fun x => r.sacks_permitidos < x.sacks_permitidos)).length := by
          rw [hfiltersplit, hfull, htake]
          omega
        omega

/-- A 15-row table with pairwise distinct sacks values for the C7 witness. -/
def c7df : List Row :=
  (List.range 15).map (fun i =>
    { r0 with sacks_permitidos := (i : Int), partido_id := toString i })

/-- C7 witness: the concrete 15-row table has a 10-row displayed top-10. -/
theorem top10_correct_witness : (top10 c7df).length = 10 :=
  (top10_correct c7df (by decide) (by decide)).1

/-- Mean of a column (a length-n numeric column is a function out of
`Fin n`). -/
def meanF {n : ℕ} (x : Fin n → ℚ) : ℚ := (∑ i, x i) / n

/-- Centered cross sum of two columns; the pandas Pearson covariance up to
the 1/(n-1) factor, which cancels in the correlation. -/
def covSum {n : ℕ} (x y : Fin n → ℚ) : ℚ :=
  ∑ i, (x i - meanF x) * (y i - meanF y)

/-- Centered square sum of a column (variance up to 1/(n-1)). -/
def varSum {n : ℕ} (x : Fin n → ℚ) : ℚ :=
  ∑ i, (x i - meanF x) * (x i - meanF x)

/-- Pearson correlation of two columns, the model of
`DataFrame.corr(method="pearson")`: `none` models the NaN entry pandas
produces when either column is degenerate (zero variance). -/
noncomputable def pearsonCorr {n : ℕ} (x y : Fin n → ℚ) : Option ℝ :=
  if varSum x = 0 ∨ varSum y = 0 then none
  else some ((covSum x y : ℝ) / Real.sqrt ((varSum x : ℝ) * (varSum y : ℝ)))

/-- Average rank of each entry of a column, the model of the ranking pandas
applies before a Spearman correlation (ties get the average rank). -/
def rankAvg {n : ℕ} (x : Fin n → ℚ) : Fin n → ℚ := fun i =>
  ((Finset.univ.filter (fun j => x j < x i)).card : ℚ)
    + (((Finset.univ.filter (fun j => x j = x i)).card : ℚ) + 1) / 2

/-- Spearman correlation: Pearson correlation of the rank columns. -/
noncomputable def spearmanCorr {n : ℕ} (x y : Fin n → ℚ) : Option ℝ :=
  pearsonCorr (rankAvg x) (rankAvg y)

/-- The index pairs (i, j) with i < j of an n-row column. -/
def pairsBelow (n : ℕ) : Finset (Fin n × Fin n) :=
  Finset.univ.filter (fun p => p.1 < p.2)

/-- Number of concordant pairs of two columns. -/
def concordant {n : ℕ} (x y : Fin n → ℚ) : ℕ :=
  ((pairsBelow n).filter (fun p =>
    (x p.1 < x p.2 ∧ y p.1 < y p.2) ∨ (x p.2 < x p.1 ∧ y p.2 < y p.1))).card

/-- Number of discordant pairs of two columns. -/
def discordant {n : ℕ} (x y : Fin n → ℚ) : ℕ :=
  ((pairsBelow n).filter (fun p =>
    (x p.1 < x p.2 ∧ y p.2 < y p.1) ∨ (x p.2 < x p.1 ∧ y p.1 < y p.2))).card

/-- Number of pairs tied in a column. -/
def tiedPairs {n : ℕ} (x : Fin n → ℚ) : ℕ :=
  ((pairsBelow n).filter (fun p => x p.1 = x p.2)).card

/-- Kendall tau-b correlation of two columns, the model of
`DataFrame.corr(method="kendall")`; `none` models the NaN entry when a
column is fully tied (zero denominator). -/
noncomputable def kendallCorr {n : ℕ} (x y : Fin n → ℚ) : Option ℝ :=
  if (pairsBelow n).card = tiedPairs x ∨ (pairsBelow n).card = tiedPairs y then none
  else some (((concordant x y : ℝ) - (discordant x y : ℝ)) /
    Real.sqrt ((((pairsBelow n).card : ℝ) - (tiedPairs x : ℝ)) *
      (((pairsBelow n).card : ℝ) - (tiedPairs y : ℝ))))

/-- Helper: a real quotient by the square root of a positive bound of its
squared numerator lies in [-1, 1]. -/
theorem abs_div_sqrt_le_one {c a : ℝ} (hpos : 0 < a) (hsq : c ^ 2 ≤ a) :
    -1 ≤ c / Real.sqrt a ∧ c / Real.sqrt a ≤ 1 := by
  have hs : 0 < Real.sqrt a := Real.sqrt_pos.mpr hpos
  have habs : |c| ≤ Real.sqrt a := by
    have h1 : Real.sqrt (c ^ 2) ≤ Real.sqrt a := Real.sqrt_le_sqrt hsq
    rwa [Real.sqrt_sq_eq_abs] at h1
  have hq : |c / Real.sqrt a| ≤ 1 := by
    rw [abs_div, abs_of_pos hs]
    exact (div_le_one hs).mpr habs
  exact abs_le.mp hq

/-- Cauchy-Schwarz for centered columns. -/
theorem covSum_sq_le {n : ℕ} (x y : Fin n → ℚ) :
    covSum x y ^ 2 ≤ varSum x * varSum y := by
  have h := Finset.sum_mul_sq_le_sq_mul_sq Finset.univ
    (fun i => x i - meanF x) (fun i => y i - meanF y)
  calc covSum x y ^ 2
      = (∑ i, (x i - meanF x) * (y i - meanF y)) ^ 2 := rfl
    _ ≤ (∑ i, (x i - meanF x) ^ 2) * ∑ i, (y i - meanF y) ^ 2 := h
    _ = varSum x * varSum y := by simp [varSum, pow_two]

/-- The centered square sum is nonnegative. -/
theorem varSum_nonneg {n : ℕ} (x : Fin n → ℚ) : 0 ≤ varSum x :=
  Finset.sum_nonneg (fun _ _ => mul_self_nonneg _)

/-- Every Pearson value lies in [-1, 1]. -/
theorem pearsonCorr_bounded {n : ℕ} (x y : Fin n → ℚ) (v : ℝ)
    (h : pearsonCorr x y = some v) : -1 ≤ v ∧ v ≤ 1 := by
  by_cases hc : varSum x = 0 ∨ varSum y = 0
  · simp [pearsonCorr, hc] at h
  · push_neg at hc
    obtain ⟨hx, hy⟩ := hc
    have hveq : v = (covSum x y : ℝ) / Real.sqrt ((varSum x : ℝ) * (varSum y : ℝ)) := by
      simp only [pearsonCorr, hx, hy, or_self, if_neg, Option.some.injEq,
        not_false_eq_true] at h
      · exact h.symm
    have hxpos : (0 : ℝ) < (varSum x : ℝ) := by
      have := lt_of_le_of_ne (varSum_nonneg x) (Ne.symm hx)
      exact_mod_cast this
    have hypos : (0 : ℝ) < (varSum y : ℝ) := by
      have := lt_of_le_of_ne (varSum_nonneg y) (Ne.symm hy)
      exact_mod_cast this
    have hsq : ((covSum x y : ℝ)) ^ 2 ≤ (varSum x : ℝ) * (varSum y : ℝ) := by
      exact_mod_cast covSum_sq_le x y
    rw [hveq]
    exact abs_div_sqrt_le_one (mul_pos hxpos hypos) hsq

/-- Concordant, discordant and tied-in-one-column pairs are mutually
exclusive, so their counts fit inside the total pair count. -/
theorem kendall_counts_le {n : ℕ} (x y : Fin n → ℚ) :
    concordant x y + discordant x y + tiedPairs x ≤ (pairsBelow n).card ∧
    concordant x y + discordant x y + tiedPairs y ≤ (pairsBelow n).card := by
  constructor
  · have hAB : Disjoint
        ((pairsBelow n).filter (fun p =>
          (x p.1 < x p.2 ∧ y p.1 < y p.2) ∨ (x p.2 < x p.1 ∧ y p.2 < y p.1)))
        ((pairsBelow n).filter (fun p =>
          (x p.1 < x p.2 ∧ y p.2 < y p.1) ∨ (x p.2 < x p.1 ∧ y p.1 < y p.2))) :=
      Finset.disjoint_filter.mpr (fun p _ hc hd => by
        rcases hc with ⟨h1, h2⟩ | ⟨h1, h2⟩ <;> rcases hd with ⟨g1, g2⟩ | ⟨g1, g2⟩ <;>
          linarith)
    have hAC : Disjoint
        ((pairsBelow n).filter (fun p =>
          (x p.1 < x p.2 ∧ y p.1 < y p.2) ∨ (x p.2 < x p.1 ∧ y p.2 < y p.1)))
        ((pairsBelow n).filter (fun p => x p.1 = x p.2)) :=
      Finset.disjoint_filter.mpr (fun p _ hc ht => by
        rcases hc with ⟨h1, _⟩ | ⟨h1, _⟩ <;> linarith)
    have hBC : Disjoint
        ((pairsBelow n).filter (fun p =>
          (x p.1 < x p.2 ∧ y p.2 < y p.1) ∨ (x p.2 < x p.1 ∧ y p.1 < y p.2)))
        ((pairsBelow n).filter (fun p => x p.1 = x p.2)) :=
      Finset.disjoint_filter.mpr (fun p _ hd ht => by
        rcases hd with ⟨h1, _⟩ | ⟨h1, _⟩ <;> linarith)
    have hcard := Finset.card_union_of_disjoint
      (Finset.disjoint_union_left.mpr ⟨hAC, hBC⟩)
    rw [Finset.card_union_of_disjoint hAB] at hcard
    have hsub := Finset.card_le_card (Finset.union_subset
      (Finset.union_subset
        (Finset.filter_subset (fun p =>
          (x p.1 < x p.2 ∧ y p.1 < y p.2) ∨ (x p.2 < x p.1 ∧ y p.2 < y p.1))
          (pairsBelow n))
        (Finset.filter_subset (fun p =>
          (x p.1 < x p.2 ∧ y p.2 < y p.1) ∨ (x p.2 < x p.1 ∧ y p.1 < y p.2))
          (pairsBelow n)))
      (Finset.filter_subset (fun p => x p.1 = x p.2) (pairsBelow n)))
    rw [hcard] at hsub
    exact hsub
  · have hAB : Disjoint
        ((pairsBelow n).filter (fun p =>
          (x p.1 < x p.2 ∧ y p.1 < y p.2) ∨ (x p.2 < x p.1 ∧ y p.2 < y p.1)))
        ((pairsBelow n).filter (fun p =>
          (x p.1 < x p.2 ∧ y p.2 < y p.1) ∨ (x p.2 < x p.1 ∧ y p.1 < y p.2))) :=
      Finset.disjoint_filter.mpr (fun p _ hc hd => by
        rcases hc with ⟨h1, h2⟩ | ⟨h1, h2⟩ <;> rcases hd with ⟨g1, g2⟩ | ⟨g1, g2⟩ <;>
          linarith)
    have hAC : Disjoint
        ((pairsBelow n).filter (fun p =>
          (x p.1 < x p.2 ∧ y p.1 < y p.2) ∨ (x p.2 < x p.1 ∧ y p.2 < y p.1)))
        ((pairsBelow n).filter (fun p => y p.1 = y p.2)) :=
      Finset.disjoint_filter.mpr (fun p _ hc ht => by
        rcases hc with ⟨_, h2⟩ | ⟨_, h2⟩ <;> linarith)
    have hBC : Disjoint
        ((pairsBelow n).filter (fun p =>
          (x p.1 < x p.2 ∧ y p.2 < y p.1) ∨ (x p.2 < x p.1 ∧ y p.1 < y p.2)))
        ((pairsBelow n).filter (fun p => y p.1 = y p.2)) :=
      Finset.disjoint_filter.mpr (fun p _ hd ht => by
        rcases hd with ⟨_, h2⟩ | ⟨_, h2⟩ <;> linarith)
    have hcard := Finset.card_union_of_disjoint
      (Finset.disjoint_union_left.mpr ⟨hAC, hBC⟩)
    rw [Finset.card_union_of_disjoint hAB] at hcard
    have hsub := Finset.card_le_card (Finset.union_subset
      (Finset.union_subset
        (Finset.filter_subset (fun p =>
          (x p.1 < x p.2 ∧ y p.1 < y p.2) ∨ (x p.2 < x p.1 ∧ y p.2 < y p.1))
          (pairsBelow n))
        (Finset.filter_subset (fun p =>
          (x p.1 < x p.2 ∧ y p.2 < y p.1) ∨ (x p.2 < x p.1 ∧ y p.1 < y p.2))
          (pairsBelow n)))
      (Finset.filter_subset (fun p => y p.1 = y p.2) (pairsBelow n)))
    rw [hcard] at hsub
    exact hsub

/-- Every Kendall tau-b value lies in [-1, 1]. -/
theorem kendallCorr_bounded {n : ℕ} (x y : Fin n → ℚ) (v : ℝ)
    (h : kendallCorr x y = some v) : -1 ≤ v ∧ v ≤ 1 := by
  by_cases hc : (pairsBelow n).card = tiedPairs x ∨ (pairsBelow n).card = tiedPairs y
  · simp [kendallCorr, hc] at h
  · push_neg at hc
    obtain ⟨hx, hy⟩ := hc
    rw [kendallCorr, if_neg (by push_neg; exact ⟨hx, hy⟩)] at h
    have hveq := (Option.some_inj.mp h).symm
    have htx : tiedPairs x < (pairsBelow n).card :=
      lt_of_le_of_ne (Finset.card_filter_le _ _) (fun e => hx e.symm)
    have hty : tiedPairs y < (pairsBelow n).card :=
      lt_of_le_of_ne (Finset.card_filter_le _ _) (fun e => hy e.symm)
    have hq1 := (kendall_counts_le x y).1
    have hq2 := (kendall_counts_le x y).2
    have hc1 : (concordant x y : ℝ) + (discordant x y : ℝ) ≤
        ((pairsBelow n).card : ℝ) - (tiedPairs x : ℝ) := by
      have hcast : ((concordant x y + discordant x y + tiedPairs x : ℕ) : ℝ) ≤
          ((pairsBelow n).card : ℝ) := Nat.cast_le.mpr hq1
      push_cast at hcast
      linarith
    have hc2 : (concordant x y : ℝ) + (discordant x y : ℝ) ≤
        ((pairsBelow n).card : ℝ) - (tiedPairs y : ℝ) := by
      have hcast : ((concordant x y + discordant x y + tiedPairs y : ℕ) : ℝ) ≤
          ((pairsBelow n).card : ℝ) := Nat.cast_le.mpr hq2
      push_cast at hcast
      linarith
    have hP : (0 : ℝ) ≤ (concordant x y : ℝ) := Nat.cast_nonneg _
    have hQ : (0 : ℝ) ≤ (discordant x y : ℝ) := Nat.cast_nonneg _
    have hposx : (0 : ℝ) < ((pairsBelow n).card : ℝ) - (tiedPairs x : ℝ) := by
      have := (Nat.cast_lt (α := ℝ)).mpr htx
      linarith
    have hposy : (0 : ℝ) < ((pairsBelow n).card : ℝ) - (tiedPairs y : ℝ) := by
      have := (Nat.cast_lt (α := ℝ)).mpr hty
      linarith
    have hsq : ((concordant x y : ℝ) - (discordant x y : ℝ)) ^ 2 ≤
        (((pairsBelow n).card : ℝ) - (tiedPairs x : ℝ)) *
          (((pairsBelow n).card : ℝ) - (tiedPairs y : ℝ)) := by
      have step1 : ((concordant x y : ℝ) - (discordant x y : ℝ)) ^ 2 ≤
          ((concordant x y : ℝ) + (discordant x y : ℝ)) ^ 2 :=
        sq_le_sq' (by linarith) (by linarith)
      have step2 : ((concordant x y : ℝ) + (discordant x y : ℝ)) ^ 2 ≤
          (((pairsBelow n).card : ℝ) - (tiedPairs x : ℝ)) *
            (((pairsBelow n).card : ℝ) - (tiedPairs y : ℝ)) := by
        rw [pow_two]
        exact mul_le_mul hc1 hc2 (by linarith) (by linarith)
      linarith
    rw [hveq]
    exact abs_div_sqrt_le_one (mul_pos hposx hposy) hsq

/-- Every Spearman value lies in [-1, 1]. -/
theorem spearmanCorr_bounded {n : ℕ} (x y : Fin n → ℚ) (v : ℝ)
    (h : spearmanCorr x y = some v) : -1 ≤ v ∧ v ≤ 1 :=
  pearsonCorr_bounded (rankAvg x) (rankAvg y) v h

/-- The correlation method selected in the sidebar. -/
inductive CorrMethod where
  | pearson
  | spearman
  | kendall
deriving DecidableEq

/-- Dispatch of `df.corr(method=method)` over the supported methods. -/
noncomputable def corrOf (m : CorrMethod) {n : ℕ} (x y : Fin n → ℚ) : Option ℝ :=
  match m with
  | .pearson => pearsonCorr x y
  | .spearman => spearmanCorr x y
  | .kendall => kendallCorr x y

/-- The correlation matrix `corr = df[numeric_cols].corr(method=method)` of
`corr_heatmap` in `core/plots.py`, over k numeric columns of n rows. -/
noncomputable def corrMatrix {k n : ℕ} (cols : Fin k → Fin n → ℚ) (m : CorrMethod) :
    Fin k → Fin k → Option ℝ :=
  fun i j => corrOf m (cols i) (cols j)

/-- The displayed heatmap matrix of `corr_heatmap` in `core/plots.py`: when
more than two columns are given, rows and columns are reordered by the
dendrogram leaf order of the clustering library (delegated; modelled here
as an arbitrary permutation parameter); then the entries of the upper
triangle including the diagonal (`np.triu(np.ones_like(corr))`) are masked
out, so only strictly-lower-triangle entries remain displayed. -/
noncomputable def corr_heatmap {k n : ℕ} (cols : Fin k → Fin n → ℚ)
    (m : CorrMethod) (leafOrder : Equiv.Perm (Fin k)) :
    Fin k → Fin k → Option ℝ :=
  let reordered :=
    if 2 < k then
      fun i j => corrMatrix cols m (leafOrder i) (leafOrder j)
    else corrMatrix cols m
  fun i j => if i ≤ j then none else reordered i j

/-- Every value of any supported correlation method lies in [-1, 1]. -/
theorem corrOf_bounded (m : CorrMethod) {n : ℕ} (x y : Fin n → ℚ) (v : ℝ)
    (h : corrOf m x y = some v) : -1 ≤ v ∧ v ≤ 1 := by
  cases m with
  | pearson => exact pearsonCorr_bounded x y v h
  | spearman => exact spearmanCorr_bounded x y v h
  | kendall => exact kendallCorr_bounded x y v h

/-- C8: in the heatmap every diagonal and upper-triangle cell is masked
(this holds for any column count, in particular four); every displayed
value lies in [-1, 1] for every supported method; and with fewer than
three columns the reordering step is skipped, so the matrix keeps its
original row and column order (only the triangle mask is applied). -/
theorem corr_heatmap_correct {k n : ℕ} (cols : Fin k → Fin n → ℚ)
    (m : CorrMethod) (leafOrder : Equiv.Perm (Fin k)) :
    (∀ i j : Fin k, i ≤ j → corr_heatmap cols m leafOrder i j = none) ∧
    (∀ i j : Fin k, ∀ v : ℝ,
      corr_heatmap cols m leafOrder i j = some v → -1 ≤ v ∧ v ≤ 1) ∧
    (k < 3 → ∀ i j : Fin k,
      corr_heatmap cols m leafOrder i j =
        if i ≤ j then none else corrMatrix cols m i j) := by
  refine ⟨?_, ?_, ?_⟩
  · intro i j hij
    simp [corr_heatmap, hij]
  · intro i j v h
    by_cases hij : i ≤ j
    · simp [corr_heatmap, hij] at h
    · by_cases hk : 2 < k
      · simp only [corr_heatmap, hij, if_false, hk, if_true] at h
        exact corrOf_bounded m _ _ v h
      · simp only [corr_heatmap, hij, if_false, hk] at h
        exact corrOf_bounded m _ _ v h
  · intro hk i j
    have hk2 : ¬ 2 < k := by omega
    simp [corr_heatmap, hk2]

/-- Four concrete numeric columns of three rows for the C8 witness. -/
def c8cols : Fin 4 → Fin 3 → ℚ := fun i j => (i : ℚ) + (j : ℚ) * (j : ℚ)

/-- Two concrete numeric columns of three rows for the C8 witness. -/
def c8cols2 : Fin 2 → Fin 3 → ℚ := fun i j => (i : ℚ) * (j : ℚ)

/-- C8 witness: with four columns a diagonal cell is masked, and with two
columns the reordering is skipped. -/
theorem corr_heatmap_correct_witness :
    corr_heatmap c8cols CorrMethod.pearson (Equiv.refl (Fin 4)) 0 1 = none ∧
    corr_heatmap c8cols2 CorrMethod.kendall (Equiv.refl (Fin 2)) 1 0 =
      (if (1 : Fin 2) ≤ 0 then none else corrMatrix c8cols2 CorrMethod.kendall 1 0) :=
  ⟨(corr_heatmap_correct c8cols CorrMethod.pearson (Equiv.refl (Fin 4))).1 0 1
      (by decide),
   (corr_heatmap_correct c8cols2 CorrMethod.kendall (Equiv.refl (Fin 2))).2.2
      (by decide) 1 0⟩
